import Mathlib

/-!
# NetworkNote — verification of the contact-capture core

Shallow embedding of the NetworkNote application (`src/app/api/process/route.ts`:
the `/api/process` POST handler and the `NetworkNote` client component).

Modelling conventions:
* JavaScript strings are Lean `String`; `string | null | undefined` is
  `Option String` (`none` for both `null` and `undefined`).
* JavaScript truthiness on such values: `none` and `some ""` are falsy.
* `Date.now()` is an external input, carried as a `now : Nat` field of the
  application state (wall-clock milliseconds); `new Date().toISOString()`
  is modelled by the same clock value (`createdAt : Nat`), which preserves
  identity and ordering of creation instants.
* The fetch of `/api/process` from the client is an external event, modelled
  by a `FetchResult` input: either a parsed JSON object or a failure
  (network error, non-2xx status, or body that fails to parse).
* On the server side, the Anthropic API call is an external primitive,
  modelled as an oracle `String → UpstreamResult` applied to the prompt, and
  `JSON.parse` is an abstract `String → Option Extracted` parameter; the
  code-fence stripping and trimming applied before parsing are embedded
  concretely.
-/

namespace NetworkNote

/-- JavaScript `String.prototype.trim`: strip whitespace from both ends.
Implemented over the character list so that it is kernel-computable. -/
def jsTrim (s : String) : String :=
  ⟨((s.data.dropWhile Char.isWhitespace).reverse.dropWhile Char.isWhitespace).reverse⟩

/-- JavaScript truthiness of a `string | null | undefined` value:
`null`/`undefined` and the empty string are falsy. -/
def jsTruthy : Option String → Bool
  | none => false
  | some s => !(s == "")

/-- `a || b` where `a : string | null | undefined` and the whole expression is
used in a string-or-absent position (`Option String`). -/
def orOpt (a b : Option String) : Option String :=
  match a with
  | some s => if s = "" then b else some s
  | none => b

/-- `a || b` where the fallback `b` is a plain string, so the result is a
plain string. -/
def orStr (a : Option String) (b : String) : String :=
  match a with
  | some s => if s = "" then b else s
  | none => b

/-- The `Contact` interface (route.ts lines 85-101).  Optional fields are
`Option`; `createdAt` is the creation-time clock value (see module header). -/
structure Contact where
  id : Nat
  name : String
  company : Option String
  role : Option String
  email : Option String
  phone : Option String
  location : Option String
  photo : Option String
  summary : Option String
  keyTopics : Option (List String)
  actionItems : Option (List String)
  followUpSuggestion : Option String
  rawNotes : Option String
  meetingContext : Option String
  createdAt : Nat
deriving DecidableEq

/-- The `FormData` interface (route.ts lines 103-111): the transient draft. -/
structure FormData where
  name : String
  company : String
  role : String
  email : String
  phone : String
  location : String
  meetingContext : String
deriving DecidableEq

/-- The empty draft used to initialize and reset the form. -/
def emptyFormData : FormData :=
  { name := "", company := "", role := "", email := "", phone := "",
    location := "", meetingContext := "" }

/-- The view state machine of the controller: `'list' | 'new' | 'detail'`. -/
inductive View where
  | list
  | new
  | detail
deriving DecidableEq

/-- The JSON object the extraction endpoint is asked to produce
(route.ts lines 36-47); every field is nullable. -/
structure Extracted where
  name : Option String
  company : Option String
  role : Option String
  email : Option String
  phone : Option String
  location : Option String
  summary : Option String
  keyTopics : Option (List String)
  actionItems : Option (List String)
  followUpSuggestion : Option String
deriving DecidableEq

/-- Outcome of the client's `fetch('/api/process')` round trip: either the
parsed JSON body of a 2xx response, or a failure of any kind (network
rejection, `!response.ok`, or `response.json()` throwing). -/
inductive FetchResult where
  | success (parsed : Extracted)
  | failure
deriving DecidableEq

/-- The component state of `NetworkNote` that the claims are about:
contacts list, selected contact, transcript, photo, processing flag, view,
draft form, and the external wall clock (`Date.now()` in milliseconds). -/
structure AppState where
  contacts : List Contact
  currentContact : Option Contact
  transcript : String
  photo : Option String
  isProcessing : Bool
  view : View
  formData : FormData
  now : Nat
deriving DecidableEq

/-- The contact built on the success path of `processWithAI`
(route.ts lines 281-297). -/
def successContact (parsed : Extracted) (s : AppState) : Contact :=
  { id := s.now
    name := orStr parsed.name (orStr (some s.formData.name) "Unknown Contact")
    company := orOpt parsed.company (orOpt (some s.formData.company) none)
    role := orOpt parsed.role (orOpt (some s.formData.role) none)
    email := orOpt parsed.email (orOpt (some s.formData.email) none)
    phone := orOpt parsed.phone (orOpt (some s.formData.phone) none)
    location := orOpt parsed.location (orOpt (some s.formData.location) none)
    photo := orOpt s.photo none
    summary := parsed.summary
    keyTopics := parsed.keyTopics
    actionItems := parsed.actionItems
    followUpSuggestion := parsed.followUpSuggestion
    rawNotes := some s.transcript
    meetingContext := orOpt (some s.formData.meetingContext) none
    createdAt := s.now }

/-- The contact built in the catch block of `processWithAI`
(route.ts lines 307-323). -/
def fallbackContact (s : AppState) : Contact :=
  { id := s.now
    name := orStr (some s.formData.name) "New Contact"
    company := orOpt (some s.formData.company) none
    role := orOpt (some s.formData.role) none
    email := orOpt (some s.formData.email) none
    phone := orOpt (some s.formData.phone) none
    location := orOpt (some s.formData.location) none
    photo := orOpt s.photo none
    rawNotes := some s.transcript
    summary := some "Notes captured - AI summary unavailable"
    keyTopics := some []
    actionItems := some []
    followUpSuggestion := some "Review notes and follow up as appropriate"
    meetingContext := orOpt (some s.formData.meetingContext) none
    createdAt := s.now }

/-- `resetForm` (route.ts lines 333-345). -/
def resetForm (s : AppState) : AppState :=
  { s with transcript := "", photo := none, formData := emptyFormData }

/-- `processWithAI` (route.ts lines 260-331), as a state transition indexed
by the outcome of the extraction round trip.  The early return on a
whitespace-only transcript, the prepend of the new contact, the selection of
it, the switch to the detail view, the form reset, and the final clearing of
the processing flag follow the source line by line; the processing flag is
set during the await and cleared at line 330, so the resulting state carries
`isProcessing := false`. -/
def processWithAI (r : FetchResult) (s : AppState) : AppState :=
  if jsTrim s.transcript = "" then s
  else
    match r with
    | .success parsed =>
      let c := successContact parsed s
      resetForm { s with contacts := c :: s.contacts, currentContact := some c,
                         view := .detail, isProcessing := false }
    | .failure =>
      let c := fallbackContact s
      resetForm { s with contacts := c :: s.contacts, currentContact := some c,
                         view := .detail, isProcessing := false }

/-- The `disabled` condition of the "Generate Summary & Save" button
(route.ts line 605): `!transcript.trim() || isProcessing`. -/
def submitDisabled (s : AppState) : Bool :=
  (jsTrim s.transcript == "") || s.isProcessing

/-- `deleteContact` (route.ts lines 347-351): filter out the id, return to
the list view, clear the selection. -/
def deleteContact (i : Nat) (s : AppState) : AppState :=
  { s with contacts := s.contacts.filter (fun c => c.id != i),
           view := .list, currentContact := none }

/-- The precedence rule of spec §4.3, stated from the spec's words, for
comparison with the code: "extraction result wins if present and non-empty;
otherwise the user-entered draft value; otherwise absent". -/
def specFieldPrecedence (extracted : Option String) (draft : String) : Option String :=
  match extracted with
  | some e => if e ≠ "" then some e else if draft ≠ "" then some draft else none
  | none => if draft ≠ "" then some draft else none

/-- A concrete state sitting in the creation view with a non-blank
transcript, used to instantiate theorems with hypotheses. -/
def sampleState : AppState :=
  { contacts := [], currentContact := none, transcript := "hi", photo := none,
    isProcessing := false, view := View.new, formData := emptyFormData,
    now := 1700000000000 }

lemma orOpt_eq_spec (e : Option String) (d : String) :
    orOpt e (orOpt (some d) none) = specFieldPrecedence e d := by
  cases e with
  | none => simp [orOpt, specFieldPrecedence]
  | some v =>
    by_cases hv : v = "" <;> simp [orOpt, specFieldPrecedence, hv]

lemma orStr_eq_spec (e : Option String) (d p : String) :
    orStr e (orStr (some d) p) = (specFieldPrecedence e d).getD p := by
  cases e with
  | none =>
    by_cases hd : d = "" <;> simp [orStr, specFieldPrecedence, hd]
  | some v =>
    by_cases hv : v = "" <;> by_cases hd : d = "" <;>
      simp [orStr, specFieldPrecedence, hv, hd]

/-- C1: with a transcript that is non-empty after trimming, `processWithAI`
resolves (on both the success and the fallback path) to exactly one new
contact prepended to the list, the detail view with that contact current,
and a cleared processing flag; and whenever the processing flag is set, the
submit button is disabled. -/
theorem processWithAI_resolves_once (s : AppState) (r : FetchResult)
    (h : jsTrim s.transcript ≠ "") :
    (∃ c, (processWithAI r s).contacts = c :: s.contacts ∧
          (processWithAI r s).currentContact = some c) ∧
    (processWithAI r s).view = View.detail ∧
    (processWithAI r s).isProcessing = false ∧
    (∀ s' : AppState, s'.isProcessing = true → submitDisabled s' = true) := by
  refine ⟨?_, ?_, ?_, fun s' hp => by simp [submitDisabled, hp]⟩
  · cases r with
    | success parsed =>
      exact ⟨successContact parsed s, by simp [processWithAI, h, resetForm],
             by simp [processWithAI, h, resetForm]⟩
    | failure =>
      exact ⟨fallbackContact s, by simp [processWithAI, h, resetForm],
             by simp [processWithAI, h, resetForm]⟩
  · cases r <;> simp [processWithAI, h, resetForm]
  · cases r <;> simp [processWithAI, h, resetForm]

theorem processWithAI_resolves_once_witness :
    jsTrim sampleState.transcript ≠ "" ∧
    (∃ c, (processWithAI .failure sampleState).contacts = c :: sampleState.contacts ∧
          (processWithAI .failure sampleState).currentContact = some c) ∧
    (processWithAI .failure sampleState).view = View.detail ∧
    (processWithAI .failure sampleState).isProcessing = false ∧
    submitDisabled { sampleState with isProcessing := true } = true :=
  ⟨by decide,
   (processWithAI_resolves_once sampleState .failure (by decide)).1,
   (processWithAI_resolves_once sampleState .failure (by decide)).2.1,
   (processWithAI_resolves_once sampleState .failure (by decide)).2.2.1,
   (processWithAI_resolves_once sampleState .failure (by decide)).2.2.2 _ rfl⟩

/-- C2: on the success path, each of the six overlapping fields of the new
contact follows the spec's precedence rule — extraction result if present
and non-empty, else the non-empty draft value, else absent — with `name`
falling back to the placeholder "Unknown Contact" instead of being absent. -/
theorem processWithAI_success_precedence (s : AppState) (parsed : Extracted)
    (h : jsTrim s.transcript ≠ "") :
    ∃ c, (processWithAI (.success parsed) s).contacts = c :: s.contacts ∧
      c.name = (specFieldPrecedence parsed.name s.formData.name).getD "Unknown Contact" ∧
      c.company = specFieldPrecedence parsed.company s.formData.company ∧
      c.role = specFieldPrecedence parsed.role s.formData.role ∧
      c.email = specFieldPrecedence parsed.email s.formData.email ∧
      c.phone = specFieldPrecedence parsed.phone s.formData.phone ∧
      c.location = specFieldPrecedence parsed.location s.formData.location := by
  refine ⟨successContact parsed s, by simp [processWithAI, h, resetForm], ?_, ?_, ?_, ?_, ?_, ?_⟩ <;>
    simp [successContact, orOpt_eq_spec, orStr_eq_spec]

theorem processWithAI_success_precedence_witness :
    jsTrim sampleState.transcript ≠ "" ∧
    (∃ c, (processWithAI (.success
        { name := some "Sarah", company := some "", role := none,
          email := none, phone := some "555", location := none,
          summary := some "s", keyTopics := some [], actionItems := some [],
          followUpSuggestion := none }) sampleState).contacts
          = c :: sampleState.contacts ∧
      c.name = (specFieldPrecedence (some "Sarah") sampleState.formData.name).getD "Unknown Contact" ∧
      c.company = specFieldPrecedence (some "") sampleState.formData.company ∧
      c.role = specFieldPrecedence none sampleState.formData.role ∧
      c.email = specFieldPrecedence none sampleState.formData.email ∧
      c.phone = specFieldPrecedence (some "555") sampleState.formData.phone ∧
      c.location = specFieldPrecedence none sampleState.formData.location) :=
  ⟨by decide, processWithAI_success_precedence sampleState _ (by decide)⟩

/-- C3: on any failure of the extraction round trip, the new contact is
built from the draft fields and the transcript, with the fixed placeholder
summary, empty topic and action lists, the generic follow-up default, the
draft name or "New Contact", and the verbatim transcript as raw notes; the
flow still lands on the detail view (no error is surfaced). -/
theorem processWithAI_failure_fallback (s : AppState)
    (h : jsTrim s.transcript ≠ "") :
    ∃ c, (processWithAI .failure s).contacts = c :: s.contacts ∧
      (processWithAI .failure s).view = View.detail ∧
      c.summary = some "Notes captured - AI summary unavailable" ∧
      c.keyTopics = some [] ∧
      c.actionItems = some [] ∧
      c.followUpSuggestion = some "Review notes and follow up as appropriate" ∧
      c.name = (if s.formData.name = "" then "New Contact" else s.formData.name) ∧
      c.rawNotes = some s.transcript ∧
      c.company = (if s.formData.company = "" then none else some s.formData.company) ∧
      c.role = (if s.formData.role = "" then none else some s.formData.role) ∧
      c.email = (if s.formData.email = "" then none else some s.formData.email) ∧
      c.phone = (if s.formData.phone = "" then none else some s.formData.phone) ∧
      c.location = (if s.formData.location = "" then none else some s.formData.location) := by
  refine ⟨fallbackContact s, by simp [processWithAI, h, resetForm],
          by simp [processWithAI, h, resetForm], ?_, ?_, ?_, ?_, ?_, ?_, ?_, ?_, ?_, ?_, ?_⟩ <;>
    simp [fallbackContact, orOpt, orStr]

theorem processWithAI_failure_fallback_witness :
    jsTrim sampleState.transcript ≠ "" ∧
    (∃ c, (processWithAI .failure sampleState).contacts = c :: sampleState.contacts ∧
      (processWithAI .failure sampleState).view = View.detail ∧
      c.summary = some "Notes captured - AI summary unavailable" ∧
      c.keyTopics = some [] ∧
      c.actionItems = some [] ∧
      c.followUpSuggestion = some "Review notes and follow up as appropriate" ∧
      c.name = (if sampleState.formData.name = "" then "New Contact" else sampleState.formData.name) ∧
      c.rawNotes = some sampleState.transcript ∧
      c.company = (if sampleState.formData.company = "" then none else some sampleState.formData.company) ∧
      c.role = (if sampleState.formData.role = "" then none else some sampleState.formData.role) ∧
      c.email = (if sampleState.formData.email = "" then none else some sampleState.formData.email) ∧
      c.phone = (if sampleState.formData.phone = "" then none else some sampleState.formData.phone) ∧
      c.location = (if sampleState.formData.location = "" then none else some sampleState.formData.location)) :=
  ⟨by decide, processWithAI_failure_fallback sampleState (by decide)⟩

lemma filter_ne_of_nodup_ids (l : List Contact) (c : Contact)
    (hc : c ∈ l) (hnd : (l.map Contact.id).Nodup) :
    ∃ l₁ l₂, l = l₁ ++ c :: l₂ ∧ l.filter (fun x => x.id != c.id) = l₁ ++ l₂ := by
  induction l with
  | nil => cases hc
  | cons x xs ih =>
    rw [List.map_cons, List.nodup_cons] at hnd
    obtain ⟨hx, hxs⟩ := hnd
    rcases List.mem_cons.mp hc with rfl | hc
    · refine ⟨[], xs, rfl, ?_⟩
      have hall : ∀ y ∈ xs, (y.id != c.id) = true := by
        intro y hy
        have hmem : y.id ∈ xs.map Contact.id := List.mem_map_of_mem _ hy
        exact bne_iff_ne.mpr fun hEq => hx (hEq ▸ hmem)
      simp only [List.filter_cons, bne_self_eq_false, List.nil_append,
        Bool.false_eq_true, if_false]
      exact List.filter_eq_self.mpr hall
    · obtain ⟨l₁, l₂, heq, hfil⟩ := ih hc hxs
      have hne : (x.id != c.id) = true := by
        have hmem : c.id ∈ xs.map Contact.id := List.mem_map_of_mem _ hc
        exact bne_iff_ne.mpr fun hEq => hx (hEq ▸ hmem)
      exact ⟨x :: l₁, l₂, by rw [heq]; rfl,
             by simp only [List.filter_cons, hne, if_true, hfil]; rfl⟩

/-- A concrete contact for instantiating theorems. -/
def contactA : Contact :=
  { id := 1, name := "A", company := none, role := none, email := none,
    phone := none, location := none, photo := none, summary := none,
    keyTopics := none, actionItems := none, followUpSuggestion := none,
    rawNotes := none, meetingContext := none, createdAt := 1 }

/-- A second concrete contact with a distinct id. -/
def contactB : Contact :=
  { contactA with id := 2, name := "B", createdAt := 2 }

/-- A concrete state holding two contacts with distinct ids. -/
def twoContactState : AppState :=
  { sampleState with contacts := [contactA, contactB],
                     view := View.detail, currentContact := some contactB }

/-- C4: on a list whose ids are unique (the documented invariant of the
data model), deleting by the id of a contact in the list removes exactly
that contact, preserves the relative order of all others, returns the view
to the list, and clears the selection. -/
theorem deleteContact_removes_exactly (s : AppState) (c : Contact)
    (hc : c ∈ s.contacts) (hnd : (s.contacts.map Contact.id).Nodup) :
    ∃ l₁ l₂, s.contacts = l₁ ++ c :: l₂ ∧
      (deleteContact c.id s).contacts = l₁ ++ l₂ ∧
      (deleteContact c.id s).view = View.list ∧
      (deleteContact c.id s).currentContact = none := by
  obtain ⟨l₁, l₂, h1, h2⟩ := filter_ne_of_nodup_ids s.contacts c hc hnd
  exact ⟨l₁, l₂, h1, h2, rfl, rfl⟩

theorem deleteContact_removes_exactly_witness :
    (contactB ∈ twoContactState.contacts ∧
      (twoContactState.contacts.map Contact.id).Nodup) ∧
    ∃ l₁ l₂, twoContactState.contacts = l₁ ++ contactB :: l₂ ∧
      (deleteContact contactB.id twoContactState).contacts = l₁ ++ l₂ ∧
      (deleteContact contactB.id twoContactState).view = View.list ∧
      (deleteContact contactB.id twoContactState).currentContact = none :=
  ⟨⟨by decide, by decide⟩,
   deleteContact_removes_exactly twoContactState contactB (by decide) (by decide)⟩

/-- One completed pass through the creation flow: the user's inputs
(transcript, draft form, photo), the wall clock at submission time
(`Date.now()`), and the outcome of the extraction round trip. -/
structure Step where
  transcript : String
  formData : FormData
  photo : Option String
  time : Nat
  result : FetchResult

/-- Run one creation flow: install the step's inputs and clock into the
state, then run `processWithAI` on the step's outcome. -/
def stepRun (st : Step) (s : AppState) : AppState :=
  processWithAI st.result
    { s with transcript := st.transcript, formData := st.formData,
             photo := st.photo, now := st.time }

/-- Run a sequence of creation flows in order. -/
def runSteps : List Step → AppState → AppState
  | [], s => s
  | st :: rest, s => runSteps rest (stepRun st s)

lemma stepRun_cons (st : Step) (s : AppState)
    (h : jsTrim st.transcript ≠ "") :
    ∃ c, (stepRun st s).contacts = c :: s.contacts ∧ c.id = st.time ∧
      c.createdAt = st.time := by
  cases hres : st.result with
  | success parsed =>
    refine ⟨successContact parsed
      { s with transcript := st.transcript, formData := st.formData,
               photo := st.photo, now := st.time }, ?_, rfl, rfl⟩
    simp [stepRun, hres, processWithAI, h, resetForm]
  | failure =>
    refine ⟨fallbackContact
      { s with transcript := st.transcript, formData := st.formData,
               photo := st.photo, now := st.time }, ?_, rfl, rfl⟩
    simp [stepRun, hres, processWithAI, h, resetForm]

lemma runSteps_createdAt (steps : List Step) (s : AppState)
    (h : ∀ st ∈ steps, jsTrim st.transcript ≠ "") :
    (runSteps steps s).contacts.map Contact.createdAt
      = (steps.map Step.time).reverse ++ s.contacts.map Contact.createdAt := by
  induction steps generalizing s with
  | nil => simp [runSteps]
  | cons st rest ih =>
    obtain ⟨c, hc, _, hct⟩ := stepRun_cons st s (h st (by simp))
    have hrest := ih (stepRun st s) (fun x hx => h x (by simp [hx]))
    rw [runSteps, hrest, hc]
    simp [hct]

/-- C7: starting from an empty list, completing N creation flows (success
or fallback alike) yields a list of length N whose creation times are the
submission times newest first (the last-created contact is at index 0);
and each individual completion prepends exactly one contact. -/
theorem runSteps_newest_first (steps : List Step) (s : AppState)
    (h0 : s.contacts = []) (h : ∀ st ∈ steps, jsTrim st.transcript ≠ "") :
    (runSteps steps s).contacts.length = steps.length ∧
    (runSteps steps s).contacts.map Contact.createdAt
      = (steps.map Step.time).reverse ∧
    (∀ (st' : Step) (s' : AppState), jsTrim st'.transcript ≠ "" →
      ∃ c, (stepRun st' s').contacts = c :: s'.contacts) := by
  have hmap := runSteps_createdAt steps s h
  rw [h0] at hmap
  simp only [List.map_nil, List.append_nil] at hmap
  refine ⟨?_, hmap, fun st' s' h' => ?_⟩
  · have hlen := congrArg List.length hmap
    simpa using hlen
  · obtain ⟨c, hc, -, -⟩ := stepRun_cons st' s' h'
    exact ⟨c, hc⟩

/-- A concrete creation step with a non-blank transcript. -/
def stepOne : Step :=
  { transcript := "met Sarah", formData := emptyFormData, photo := none,
    time := 41, result := .failure }

/-- A second concrete creation step. -/
def stepTwo : Step :=
  { transcript := "met Bob", formData := emptyFormData, photo := none,
    time := 42, result := .failure }

theorem runSteps_newest_first_witness :
    (sampleState.contacts = [] ∧
      ∀ st ∈ [stepOne, stepTwo], jsTrim st.transcript ≠ "") ∧
    (runSteps [stepOne, stepTwo] sampleState).contacts.length = 2 ∧
    (runSteps [stepOne, stepTwo] sampleState).contacts.map Contact.createdAt
      = [42, 41] ∧
    ∃ c, (stepRun stepOne sampleState).contacts = c :: sampleState.contacts :=
  ⟨⟨rfl, by decide⟩,
   (runSteps_newest_first [stepOne, stepTwo] sampleState rfl (by decide)).1,
   (runSteps_newest_first [stepOne, stepTwo] sampleState rfl (by decide)).2.1,
   (runSteps_newest_first [stepOne, stepTwo] sampleState rfl (by decide)).2.2
     stepOne sampleState (by decide)⟩

lemma filter_length_add_countP (l : List Contact) (i : Nat) :
    (l.filter (fun c => c.id != i)).length
      + l.countP (fun c => c.id == i) = l.length := by
  induction l with
  | nil => simp
  | cons x xs ih =>
    by_cases hx : x.id = i
    · have h1 : (x.id != i) = false := by simp [hx]
      have h2 : (x.id == i) = true := by simp [hx]
      simp [List.filter_cons, List.countP_cons, h1, h2]
      omega
    · have h1 : (x.id != i) = true := by simp [hx]
      have h2 : (x.id == i) = false := by simp [hx]
      simp [List.filter_cons, List.countP_cons, h1, h2]
      omega

/-- C10: contact ids are the wall-clock millisecond of creation, so two
contacts created in the same millisecond share an id; and `deleteContact`
removes every contact carrying the given id (all duplicates), keeping all
contacts with other ids. -/
theorem same_millisecond_ids_delete_all (s : AppState) (st₁ st₂ : Step)
    (h₁ : jsTrim st₁.transcript ≠ "") (h₂ : jsTrim st₂.transcript ≠ "")
    (ht : st₁.time = st₂.time) :
    (∃ c₂ c₁ rest, (stepRun st₂ (stepRun st₁ s)).contacts = c₂ :: c₁ :: rest ∧
       c₂.id = c₁.id) ∧
    (∀ (s' : AppState) (i : Nat),
       (deleteContact i s').contacts.countP (fun c => c.id == i) = 0 ∧
       (deleteContact i s').contacts.length
         + s'.contacts.countP (fun c => c.id == i) = s'.contacts.length) := by
  constructor
  · obtain ⟨c₁, hc₁, hid₁, -⟩ := stepRun_cons st₁ s h₁
    obtain ⟨c₂, hc₂, hid₂, -⟩ := stepRun_cons st₂ (stepRun st₁ s) h₂
    exact ⟨c₂, c₁, s.contacts, by rw [hc₂, hc₁], by rw [hid₁, hid₂, ht]⟩
  · intro s' i
    refine ⟨List.countP_eq_zero.mpr ?_, filter_length_add_countP s'.contacts i⟩
    intro c hcmem
    have := (List.mem_filter.mp hcmem).2
    simpa [bne] using this

/-- A step landing in the same millisecond as `stepOne`. -/
def stepOneTwin : Step :=
  { stepOne with transcript := "met Sarah again" }

theorem same_millisecond_ids_delete_all_witness :
    (jsTrim stepOne.transcript ≠ "" ∧ jsTrim stepOneTwin.transcript ≠ "" ∧
      stepOne.time = stepOneTwin.time) ∧
    (∃ c₂ c₁ rest,
       (stepRun stepOneTwin (stepRun stepOne sampleState)).contacts
         = c₂ :: c₁ :: rest ∧ c₂.id = c₁.id) ∧
    (deleteContact 41 (stepRun stepOneTwin (stepRun stepOne sampleState))).contacts.countP
        (fun c => c.id == 41) = 0 ∧
    (deleteContact 41 (stepRun stepOneTwin (stepRun stepOne sampleState))).contacts.length
        + (stepRun stepOneTwin (stepRun stepOne sampleState)).contacts.countP
            (fun c => c.id == 41)
      = (stepRun stepOneTwin (stepRun stepOne sampleState)).contacts.length :=
  ⟨⟨by decide, by decide, rfl⟩,
   (same_millisecond_ids_delete_all sampleState stepOne stepOneTwin
      (by decide) (by decide) rfl).1,
   ((same_millisecond_ids_delete_all sampleState stepOne stepOneTwin
      (by decide) (by decide) rfl).2 _ 41).1,
   ((same_millisecond_ids_delete_all sampleState stepOne stepOneTwin
      (by decide) (by decide) rfl).2 _ 41).2⟩

/-- `loadFromStorage` (route.ts lines 149-155): the previously persisted
list, or `[]` when nothing is stored.  Storage is `Option (List Contact)`:
`none` when the key is absent (the JSON round trip is the identity here). -/
def loadFromStorage (storage : Option (List Contact)) : List Contact :=
  storage.getD []

/-- The save-on-change effect (route.ts lines 186-190): when the in-memory
`contacts` value changes (including the mount run), write the full list to
storage if the list is non-empty or if stored data already exists;
otherwise leave storage untouched. -/
def saveEffect (contacts : List Contact) (storage : Option (List Contact)) :
    Option (List Contact) :=
  if contacts.length > 0 || (loadFromStorage storage).length > 0 then
    some contacts
  else storage

/-- The save effect as it runs during the first load-and-render cycle: both
mount effects run after the first render, in declaration order, so the save
effect (declared second) executes while `contacts` still holds its initial
value `[]` — the load effect's `setContacts` only lands on the following
render. -/
def firstCycleSave (storage : Option (List Contact)) : Option (List Contact) :=
  saveEffect [] storage

/-- C6: evaluation of the save-on-change guard in the first
load-and-render cycle with pre-existing stored data.  Contrary to the
claim, the guard `contacts.length > 0 || loadFromStorage().length > 0` is
true precisely because stored data exists, so the effect writes the initial
empty in-memory list over the stored one. -/
theorem firstCycleSave_overwrites :
    firstCycleSave (some [contactA]) = some [] ∧
    firstCycleSave (some [contactA]) ≠ some [contactA] := by
  constructor
  · rfl
  · intro h
    simp [firstCycleSave, saveEffect, loadFromStorage] at h

/-- One optional vCard fragment (route.ts lines 357-361): the ternary
yields PRE + value + POST when the field is truthy, and `''` otherwise. -/
def vcField (pre post : String) (v : Option String) : String :=
  match v with
  | some s => if s = "" then "" else pre ++ s ++ post
  | none => ""

/-- `generateVCard` (route.ts lines 353-363): the vCard document text.  In
the source template literal each interpolated fragment sits on its own
line, so the newline after a fragment remains even when the fragment is the
empty string. -/
def generateVCard (c : Contact) : String :=
  "BEGIN:VCARD\nVERSION:3.0\nFN:" ++ c.name ++ "\n" ++
  vcField "ORG:" "" c.company ++ "\n" ++
  vcField "TITLE:" "" c.role ++ "\n" ++
  vcField "EMAIL:" "" c.email ++ "\n" ++
  vcField "TEL:" "" c.phone ++ "\n" ++
  vcField "ADR:;;" ";;;" c.location ++ "\n" ++
  "NOTE:" ++ orStr c.summary "" ++ " | Met: " ++
  orStr c.meetingContext "Conference" ++ "\nEND:VCARD"

/-- Split a character list at every occurrence of a separator; the result
always has one more element than the number of separators. -/
def splitChar (sep : Char) : List Char → List (List Char)
  | [] => [[]]
  | c :: rest =>
    if c = sep then [] :: splitChar sep rest
    else
      match splitChar sep rest with
      | [] => [[c]]
      | h :: t => (c :: h) :: t

/-- The lines of a document: split its characters at newlines. -/
def docLines (s : String) : List String :=
  (splitChar '\n' s.data).map String.mk

lemma splitChar_no_sep (sep : Char) (l : List Char) (h : sep ∉ l) :
    splitChar sep l = [l] := by
  induction l with
  | nil => rfl
  | cons c rest ih =>
    have hc : ¬(c = sep) := fun he => h (he ▸ List.mem_cons_self c rest)
    have hrest : sep ∉ rest := fun hm => h (List.mem_cons_of_mem _ hm)
    simp only [splitChar, if_neg hc, ih hrest]

lemma splitChar_append (sep : Char) (a b : List Char) (ha : sep ∉ a) :
    splitChar sep (a ++ sep :: b) = a :: splitChar sep b := by
  induction a with
  | nil => simp [splitChar]
  | cons c rest ih =>
    have hc : ¬(c = sep) := fun he => ha (he ▸ List.mem_cons_self c rest)
    have hrest : sep ∉ rest := fun hm => ha (List.mem_cons_of_mem _ hm)
    simp only [List.cons_append, splitChar, if_neg hc, List.append_eq, ih hrest]

/-- A contact whose only present attribute is its name. -/
def nameOnlyContact (n : String) : Contact :=
  { contactA with name := n }

/-- C5 counterexample: for the name-only contact "A" the generated document
does not consist of the five claimed lines (it has ten, five of them
empty). -/
theorem generateVCard_nameOnly_not_five_lines :
    ¬ ∃ note, docLines (generateVCard (nameOnlyContact "A")) =
      ["BEGIN:VCARD", "VERSION:3.0", "FN:A", note, "END:VCARD"] := by
  rintro ⟨note, h⟩
  have hlen := congrArg List.length h
  have hten : (docLines (generateVCard (nameOnlyContact "A"))).length = 10 := by
    decide
  rw [hten] at hlen
  simp at hlen

/-- C5 (amended): for a contact whose only present attribute is a
newline-free name, the generated vCard has exactly ten lines: the five
claimed ones plus one empty line in place of each of the five absent
optional fields (the template newline survives the empty fragment). -/
theorem generateVCard_nameOnly_lines (n : String) (hn : '\n' ∉ n.data) :
    docLines (generateVCard (nameOnlyContact n)) =
      ["BEGIN:VCARD", "VERSION:3.0", "FN:" ++ n, "", "", "", "", "",
       "NOTE: | Met: Conference", "END:VCARD"] := by
  have hdata : (generateVCard (nameOnlyContact n)).data
      = "BEGIN:VCARD".data ++ '\n' :: ("VERSION:3.0".data ++ '\n' ::
        (("FN:".data ++ n.data) ++ '\n' :: ([] ++ '\n' :: ([] ++ '\n' ::
        ([] ++ '\n' :: ([] ++ '\n' :: ([] ++ '\n' ::
        ("NOTE: | Met: Conference".data ++ '\n' :: "END:VCARD".data)))))))) := by
    simp [generateVCard, nameOnlyContact, contactA, vcField, orStr,
      String.data_append]
  have hfn : '\n' ∉ "FN:".data ++ n.data := by
    intro hmem
    rcases List.mem_append.mp hmem with hl | hr
    · simp at hl
    · exact hn hr
  rw [docLines, hdata,
    splitChar_append _ _ _ (by decide),
    splitChar_append _ _ _ (by decide),
    splitChar_append _ _ _ hfn,
    splitChar_append _ _ _ (by decide),
    splitChar_append _ _ _ (by decide),
    splitChar_append _ _ _ (by decide),
    splitChar_append _ _ _ (by decide),
    splitChar_append _ _ _ (by decide),
    splitChar_append _ _ _ (by decide),
    splitChar_no_sep _ _ (by decide)]
  rfl

theorem generateVCard_nameOnly_lines_witness :
    ('\n' ∉ ("Ada" : String).data) ∧
    docLines (generateVCard (nameOnlyContact "Ada")) =
      ["BEGIN:VCARD", "VERSION:3.0", "FN:Ada", "", "", "", "", "",
       "NOTE: | Met: Conference", "END:VCARD"] :=
  ⟨by decide, generateVCard_nameOnly_lines "Ada" (by decide)⟩

/-- One hint line of the prompt template (route.ts lines 30-33): the label
followed by the field value when the field is truthy, `''` otherwise. -/
def hintLine (v : String) (label : String) : String :=
  if v = "" then "" else label ++ v

/-- The fixed part of the prompt template before the transcript
(route.ts lines 25-27). -/
def promptIntro : String :=
  "Analyze this conversation notes from meeting someone at a conference/event. Extract structured information and provide a summary with action items.\n\nConversation notes:\n"

/-- The fixed part of the prompt template after the hint lines
(route.ts lines 34-47). -/
def promptOutro : String :=
  "\n\nRespond in JSON only, no markdown backticks or any other text:\n\x7b\n  \"name\": \"extracted or provided name\",\n  \"company\": \"extracted or provided company\",\n  \"role\": \"extracted or provided role/title\",\n  \"email\": \"extracted email or null\",\n  \"phone\": \"extracted phone or null\",\n  \"location\": \"extracted location or null\",\n  \"summary\": \"2-3 sentence summary of who they are and what you discussed\",\n  \"keyTopics\": [\"topic1\", \"topic2\"],\n  \"actionItems\": [\"action1\", \"action2\"],\n  \"followUpSuggestion\": \"suggested follow-up approach\"\n\x7d"

/-- The prompt sent to the language model (route.ts lines 25-47): the fixed
template embedding the transcript and the four hint lines the source
interpolates (name, company, role, meetingContext). -/
def buildPrompt (t : String) (fd : FormData) : String :=
  promptIntro ++ t ++ "\n\n" ++
  hintLine fd.name "Name provided: " ++ "\n" ++
  hintLine fd.company "Company provided: " ++ "\n" ++
  hintLine fd.role "Role provided: " ++ "\n" ++
  hintLine fd.meetingContext "Meeting context: " ++ promptOutro

/-- Whether the first list is an initial segment of the second. -/
def startsWithChars : List Char → List Char → Bool
  | [], _ => true
  | _ :: _, [] => false
  | a :: as, b :: bs => a == b && startsWithChars as bs

/-- Whether the first list occurs contiguously anywhere in the second. -/
def occursIn (n : List Char) : List Char → Bool
  | [] => startsWithChars n []
  | c :: rest => startsWithChars n (c :: rest) || occursIn n rest

lemma startsWithChars_self_append (n b : List Char) :
    startsWithChars n (n ++ b) = true := by
  induction n with
  | nil => rfl
  | cons a as ih => simp [startsWithChars, ih]

lemma occursIn_head (n b : List Char) : occursIn n (n ++ b) = true := by
  cases n with
  | nil =>
    cases b with
    | nil => rfl
    | cons c rest => simp [occursIn, startsWithChars]
  | cons a as =>
    show occursIn (a :: as) (a :: (as ++ b)) = true
    have h1 : startsWithChars (a :: as) (a :: (as ++ b)) = true := by
      simpa using startsWithChars_self_append (a :: as) b
    simp [occursIn, h1]

lemma occursIn_append_left (n a h : List Char) (hh : occursIn n h = true) :
    occursIn n (a ++ h) = true := by
  induction a with
  | nil => simpa
  | cons c as ih => simp [occursIn, ih]

/-- A draft whose only non-empty field is the email. -/
def fdEmailOnly : FormData := { emptyFormData with email := "@" }

set_option maxRecDepth 10000 in
/-- C9 counterexample: the draft's email is non-empty, yet its text
never occurs in the prompt — the template interpolates no email hint.
(The same holds for phone and location.) -/
theorem buildPrompt_omits_email :
    fdEmailOnly.email ≠ "" ∧
    occursIn fdEmailOnly.email.data (buildPrompt "hello" fdEmailOnly).data
      = false := by
  exact ⟨by decide, by decide⟩

/-- A draft with every hint field non-empty. -/
def fdFull : FormData :=
  { name := "N", company := "C", role := "R", email := "E", phone := "P",
    location := "L", meetingContext := "M" }

/-- C9 (amended): the prompt is built from the fixed template and embeds
the transcript and each non-empty hint among name, company, role and
meetingContext (with its label); it does not depend on the email, phone or
location fields at all. -/
theorem buildPrompt_embeds_hints (t : String) (fd : FormData) :
    occursIn t.data (buildPrompt t fd).data = true ∧
    (fd.name ≠ "" →
      occursIn ("Name provided: " ++ fd.name).data
        (buildPrompt t fd).data = true) ∧
    (fd.company ≠ "" →
      occursIn ("Company provided: " ++ fd.company).data
        (buildPrompt t fd).data = true) ∧
    (fd.role ≠ "" →
      occursIn ("Role provided: " ++ fd.role).data
        (buildPrompt t fd).data = true) ∧
    (fd.meetingContext ≠ "" →
      occursIn ("Meeting context: " ++ fd.meetingContext).data
        (buildPrompt t fd).data = true) ∧
    (∀ e p l, buildPrompt t { fd with email := e, phone := p, location := l }
        = buildPrompt t fd) := by
  refine ⟨?_, ?_, ?_, ?_, ?_, fun e p l => rfl⟩
  · simp only [buildPrompt, String.data_append, List.append_assoc]
    exact occursIn_append_left _ _ _ (occursIn_head _ _)
  · intro hne
    have hl : hintLine fd.name "Name provided: "
        = "Name provided: " ++ fd.name := by
      rw [hintLine, if_neg hne]
    simp only [buildPrompt, hl, String.data_append, List.append_assoc]
    apply occursIn_append_left
    apply occursIn_append_left
    apply occursIn_append_left
    rw [← List.append_assoc]
    exact occursIn_head _ _
  · intro hne
    have hl : hintLine fd.company "Company provided: "
        = "Company provided: " ++ fd.company := by
      rw [hintLine, if_neg hne]
    simp only [buildPrompt, hl, String.data_append, List.append_assoc]
    apply occursIn_append_left
    apply occursIn_append_left
    apply occursIn_append_left
    apply occursIn_append_left
    apply occursIn_append_left
    rw [← List.append_assoc]
    exact occursIn_head _ _
  · intro hne
    have hl : hintLine fd.role "Role provided: "
        = "Role provided: " ++ fd.role := by
      rw [hintLine, if_neg hne]
    simp only [buildPrompt, hl, String.data_append, List.append_assoc]
    apply occursIn_append_left
    apply occursIn_append_left
    apply occursIn_append_left
    apply occursIn_append_left
    apply occursIn_append_left
    apply occursIn_append_left
    apply occursIn_append_left
    rw [← List.append_assoc]
    exact occursIn_head _ _
  · intro hne
    have hl : hintLine fd.meetingContext "Meeting context: "
        = "Meeting context: " ++ fd.meetingContext := by
      rw [hintLine, if_neg hne]
    simp only [buildPrompt, hl, String.data_append, List.append_assoc]
    apply occursIn_append_left
    apply occursIn_append_left
    apply occursIn_append_left
    apply occursIn_append_left
    apply occursIn_append_left
    apply occursIn_append_left
    apply occursIn_append_left
    apply occursIn_append_left
    apply occursIn_append_left
    rw [← List.append_assoc]
    exact occursIn_head _ _

theorem buildPrompt_embeds_hints_witness :
    (fdFull.name ≠ "" ∧ fdFull.company ≠ "" ∧ fdFull.role ≠ "" ∧
      fdFull.meetingContext ≠ "") ∧
    occursIn ("hi" : String).data (buildPrompt "hi" fdFull).data = true ∧
    occursIn ("Name provided: " ++ fdFull.name).data
      (buildPrompt "hi" fdFull).data = true ∧
    occursIn ("Company provided: " ++ fdFull.company).data
      (buildPrompt "hi" fdFull).data = true ∧
    occursIn ("Role provided: " ++ fdFull.role).data
      (buildPrompt "hi" fdFull).data = true ∧
    occursIn ("Meeting context: " ++ fdFull.meetingContext).data
      (buildPrompt "hi" fdFull).data = true ∧
    buildPrompt "hi" { fdFull with email := "x", phone := "y", location := "z" }
      = buildPrompt "hi" fdFull :=
  ⟨⟨by decide, by decide, by decide, by decide⟩,
   (buildPrompt_embeds_hints "hi" fdFull).1,
   (buildPrompt_embeds_hints "hi" fdFull).2.1 (by decide),
   (buildPrompt_embeds_hints "hi" fdFull).2.2.1 (by decide),
   (buildPrompt_embeds_hints "hi" fdFull).2.2.2.1 (by decide),
   (buildPrompt_embeds_hints "hi" fdFull).2.2.2.2.1 (by decide),
   (buildPrompt_embeds_hints "hi" fdFull).2.2.2.2.2 "x" "y" "z"⟩

/-- One block of the Anthropic message content: a text block or any other
block type. -/
inductive ContentBlock where
  | text (s : String)
  | other
deriving DecidableEq

/-- The upstream message: its content blocks. -/
structure UpstreamMessage where
  content : List ContentBlock
deriving DecidableEq

/-- Outcome of `anthropic.messages.create`: the message, or a thrown
error. -/
inductive UpstreamResult where
  | ok (m : UpstreamMessage)
  | error
deriving DecidableEq

/-- `message.content.find(block => block.type === 'text')` projected to the
block's text (route.ts line 53). -/
def findTextBlock : List ContentBlock → Option String
  | [] => none
  | .text s :: _ => some s
  | .other :: rest => findTextBlock rest

/-- The backquote character (code 96). -/
def bq : Char := Char.ofNat 96

/-- First replace of route.ts line 60: delete every occurrence of three
backquotes followed by "json" and an optional newline, scanning left to
right without overlap, exactly as the global regex replace does. -/
def stripJsonFences : List Char → List Char
  | a :: b :: c :: d :: e :: f :: g :: rest =>
    if a = bq ∧ b = bq ∧ c = bq ∧ d = 'j' ∧ e = 's' ∧ f = 'o' ∧ g = 'n' then
      match rest with
      | '\n' :: t => stripJsonFences t
      | t => stripJsonFences t
    else a :: stripJsonFences (b :: c :: d :: e :: f :: g :: rest)
  | l => l

/-- Second replace of route.ts line 61: delete every occurrence of three
backquotes and an optional newline. -/
def stripFences3 : List Char → List Char
  | a :: b :: c :: rest =>
    if a = bq ∧ b = bq ∧ c = bq then
      match rest with
      | '\n' :: t => stripFences3 t
      | t => stripFences3 t
    else a :: stripFences3 (b :: c :: rest)
  | l => l

/-- The cleaning applied to the response text before parsing
(route.ts lines 59-62): both replaces, then trim. -/
def cleanResponse (s : String) : String :=
  jsTrim ⟨stripFences3 (stripJsonFences s.data)⟩

/-- Body of a response of the POST handler: an error object or the parsed
JSON object. -/
inductive PostBody where
  | err (e : String)
  | json (p : Extracted)
deriving DecidableEq

/-- A response of the POST handler: HTTP status and body. -/
structure PostResponse where
  status : Nat
  body : PostBody
deriving DecidableEq

/-- The POST handler of `/api/process` (route.ts lines 8-74).  The request
body supplies `transcript` (`none` when the field is missing) and
`formData`; the Anthropic call is an oracle applied to the built prompt;
`JSON.parse` on the cleaned text is an abstract parser returning `none` on
a parse error.  The upstream error, the missing text block, and the parse
failure are all caught by the surrounding try/catch, which returns the
fixed 500 error object. -/
def POST (transcript : Option String) (fd : FormData)
    (upstream : String → UpstreamResult)
    (parseJson : String → Option Extracted) : PostResponse :=
  if jsTruthy transcript = false then
    ⟨400, .err "No transcript provided"⟩
  else
    match upstream (buildPrompt (transcript.getD "") fd) with
    | .error => ⟨500, .err "Failed to process with AI"⟩
    | .ok m =>
      match findTextBlock m.content with
      | none => ⟨500, .err "Failed to process with AI"⟩
      | some txt =>
        match parseJson (cleanResponse txt) with
        | none => ⟨500, .err "Failed to process with AI"⟩
        | some p => ⟨200, .json p⟩

/-- C8 counterexample: a request whose transcript is present but empty is
answered with the 400 error object (the guard tests JavaScript falsiness,
not absence), although the transcript is not missing. -/
theorem POST_400_on_present_empty_transcript :
    POST (some "") emptyFormData (fun _ => .error) (fun _ => none)
      = ⟨400, .err "No transcript provided"⟩ ∧
    (some "" : Option String) ≠ none := by
  exact ⟨rfl, by simp⟩

/-- C8 (amended): the handler returns the 400 error object exactly on a
missing or empty transcript, and then its result does not depend on the
upstream oracle or the parser (no upstream call is made); with a non-empty
transcript it returns the 500 error object when the upstream call errors,
when the message has no text block, or when the cleaned text fails to
parse, and otherwise status 200 with the parsed object. -/
theorem POST_status_characterization (t : Option String) (fd : FormData)
    (upstream : String → UpstreamResult)
    (parseJson : String → Option Extracted) :
    ((t = none ∨ t = some "") →
       (POST t fd upstream parseJson = ⟨400, .err "No transcript provided"⟩ ∧
        ∀ (u' : String → UpstreamResult) (p' : String → Option Extracted),
          POST t fd u' p' = POST t fd upstream parseJson)) ∧
    (∀ s, t = some s → s ≠ "" →
      ((upstream (buildPrompt s fd) = .error →
          POST t fd upstream parseJson
            = ⟨500, .err "Failed to process with AI"⟩) ∧
       (∀ m, upstream (buildPrompt s fd) = .ok m →
          findTextBlock m.content = none →
          POST t fd upstream parseJson
            = ⟨500, .err "Failed to process with AI"⟩) ∧
       (∀ m txt, upstream (buildPrompt s fd) = .ok m →
          findTextBlock m.content = some txt →
          parseJson (cleanResponse txt) = none →
          POST t fd upstream parseJson
            = ⟨500, .err "Failed to process with AI"⟩) ∧
       (∀ m txt p, upstream (buildPrompt s fd) = .ok m →
          findTextBlock m.content = some txt →
          parseJson (cleanResponse txt) = some p →
          POST t fd upstream parseJson = ⟨200, .json p⟩))) := by
  constructor
  · rintro (rfl | rfl)
    · exact ⟨rfl, fun u' p' => rfl⟩
    · exact ⟨rfl, fun u' p' => rfl⟩
  · rintro s rfl hs
    have ht : jsTruthy (some s) = true := by simp [jsTruthy, hs]
    refine ⟨?_, ?_, ?_, ?_⟩
    · intro hu
      simp [POST, ht, hu]
    · intro m hu hf
      simp [POST, ht, hu, hf]
    · intro m txt hu hf hp
      simp [POST, ht, hu, hf, hp]
    · intro m txt p hu hf hp
      simp [POST, ht, hu, hf, hp]

/-- The all-null extraction object. -/
def extractedEmpty : Extracted :=
  { name := none, company := none, role := none, email := none,
    phone := none, location := none, summary := none, keyTopics := none,
    actionItems := none, followUpSuggestion := none }

/-- A concrete upstream oracle answering with one non-text block and one
text block. -/
def upstreamSample : String → UpstreamResult :=
  fun _ => .ok ⟨[.other, .text "\x7b\x7d"]⟩

/-- A concrete parser accepting everything. -/
def parseSample : String → Option Extracted :=
  fun _ => some extractedEmpty

theorem POST_status_characterization_witness :
    POST (some "x") emptyFormData upstreamSample parseSample
      = ⟨200, .json extractedEmpty⟩ ∧
    POST none emptyFormData upstreamSample parseSample
      = ⟨400, .err "No transcript provided"⟩ :=
  ⟨((POST_status_characterization (some "x") emptyFormData upstreamSample
      parseSample).2 "x" rfl (by decide)).2.2.2 ⟨[.other, .text "\x7b\x7d"]⟩
      "\x7b\x7d" extractedEmpty rfl rfl rfl,
   ((POST_status_characterization none emptyFormData upstreamSample
      parseSample).1 (Or.inl rfl)).1⟩

end NetworkNote
